import Mathlib

/-! Verification of the `sold` driver (`sold/src/lib.rs`): the diagnostic
position index (`compute_line_info` / `get_line_column`), the diagnostic
renderer (`print_formatted_message`), the result interpreter
(`parse_comp_result`), the compilation request builder (the request
document assembled inside `compile`), and the artifact-writing pipeline
(`build`).

Modelling conventions:
* `serde_json::Value` is modelled by `Json`; objects are association
  lists iterated in list order, `get` returns the first binding.
* Numbers are modelled as integers (`Int`); `as_i64` succeeds exactly on
  numbers, as all numbers appearing in the modelled code paths are
  integral.
* `usize` values are modelled as `Nat`; where the source subtracts,
  wrap-around is made explicit modulo `2 ^ 64` (`usize_sub_add_one`).
  The `as usize` cast of an `i64` is `int_to_usize` (wrap modulo
  `2 ^ 64`).
* `Option::unwrap` on `None` (and `as_str()/as_i64()` unwraps on values
  of the wrong type) abort the process; the abort is the explicit
  `panics` result.
* ANSI colouring (`colorize`) depends only on whether stderr is a
  terminal and never changes the characters of the message; it is
  modelled as the identity (the non-tty branch).
* `eprintln!` output is collected in a `List String` trace, one entry
  per printed line, in print order.
* The global `LINES: Mutex<HashMap<String, Vec<usize>>>` table is passed
  explicitly as an association list `List (String × List Nat)`; the
  program is single threaded, so the lock is behaviourally transparent.
-/

namespace Sold

/-- Model of `serde_json::Value`. -/
inductive Json where
  | null
  | bool (b : Bool)
  | num (n : Int)
  | str (s : String)
  | arr (xs : List Json)
  | obj (fields : List (String × Json))

/-- First binding for a key in an object's field list (`Map::get`). -/
def alist_get {α : Type} : List (String × α) → String → Option α
  | [], _ => none
  | (k, v) :: rest, key => if k = key then some v else alist_get rest key

/-- Model of `Value::as_object`. -/
def Json.asObject : Json → Option (List (String × Json))
  | .obj fields => some fields
  | _ => none

/-- Model of `Value::as_array`. -/
def Json.asArray : Json → Option (List Json)
  | .arr xs => some xs
  | _ => none

/-- Model of `Value::as_str`. -/
def Json.asStr : Json → Option String
  | .str s => some s
  | _ => none

/-- Model of `Value::as_i64` (all numbers in scope are integral). -/
def Json.asI64 : Json → Option Int
  | .num n => some n
  | _ => none

/-- Indexing `value[key]`: the `serde_json` Index impl, Null for a
missing key or a non-object. -/
def jindex (v : Json) (key : String) : Json :=
  match v.asObject with
  | some fields => (alist_get fields key).getD Json.null
  | none => Json.null

/-- The `i64 as usize` cast: two's-complement wrap modulo `2 ^ 64`. -/
def int_to_usize (i : Int) : Nat := (i % (2 ^ 64 : Int)).toNat

/-- The expression `pos - last + 1` on `usize`: ordinary subtraction when it does not
underflow, and the released binary's wrap-around modulo `2 ^ 64`
otherwise (a checked build aborts here instead; either way the
underflowing case does not produce a 1-based column). -/
def usize_sub_add_one (pos last : Nat) : Nat :=
  if last ≤ pos then pos - last + 1 else (pos + (2 ^ 64 + 1) - last) % 2 ^ 64

/-- Strip one trailing carriage return from a line
(`BufRead::lines` / `str::lines` semantics). -/
def stripCR (l : List Char) : List Char :=
  if l.getLast? = some '\r' then l.dropLast else l

/-- Character-level splitter behind `rustLines`; `acc` is the line
being accumulated. A final line without terminator is kept, a trailing
terminator produces no empty final line. -/
def rustLinesGo : List Char → List Char → List String
  | [], acc => if acc.isEmpty then [] else [String.mk (stripCR acc)]
  | c :: rest, acc =>
    if c = '\n' then String.mk (stripCR acc) :: rustLinesGo rest []
    else rustLinesGo rest (acc ++ [c])

/-- Model of `str::lines` / `BufRead::lines`: split on a line feed, strip one
trailing carriage return per line, no empty final line for a trailing
terminator. -/
def rustLines (s : String) : List String := rustLinesGo s.data []

/-- The loop of `compute_line_info`: `byte += line.len() + 1;
info.push(byte)` (`line.len()` counts UTF-8 bytes of the line without
its terminator). -/
def compute_line_info_go : List String → Nat → List Nat
  | [], _ => []
  | l :: rest, byte =>
    let b := byte + l.utf8ByteSize + 1
    b :: compute_line_info_go rest b

/-- Function `compute_line_info`: cumulative end offset of every line of the
content (the table value inserted into `LINES`). The source reads the
bytes through `BufReader::lines`; content is modelled as the (valid
UTF-8) text, the unreachable invalid-UTF-8 early return is dropped. -/
def compute_line_info (content : String) : List Nat :=
  compute_line_info_go (rustLines content) 0

/-- Result of `get_line_column`: `Ok((line, column))` or `bail!`. -/
inductive LcResult where
  | ok (line col : Nat)
  | err (msg : String)
  deriving DecidableEq, Repr

/-- The scan loop of `get_line_column`, with `line` starting at 1 and
the previous-line-end accumulator `last` starting at 1. -/
def glc_go : List Nat → Nat → Nat → Nat → LcResult
  | [], _, _, _ => .err "Position not found"
  | b :: rest, line, last, pos =>
    if pos > b then glc_go rest (line + 1) b pos
    else .ok line (usize_sub_add_one pos last)

/-- Function `get_line_column(filename, pos)` over an explicit `LINES` table. -/
def get_line_column (lm : List (String × List Nat)) (filename : String) (pos : Nat) : LcResult :=
  match alist_get lm filename with
  | some info => glc_go info 1 1 pos
  | none => .err "Filename not found"

/-- The line-number gutter hint: the line number right-aligned in a
field of `w` characters (the format spec pads to width `w`), then a
gutter bar. -/
def line_hint (line w : Nat) : String :=
  String.mk (List.replicate (w - (toString line).length) ' ') ++ toString line ++ " |"

/-- Gutter width `((line as f64).log10() as usize) + 1`: the decimal digit count of
the line number — written as the length of its decimal rendering, which
is what the float expression computes for every attainable line number
(including 0, where the negative-infinity cast saturates to 0). -/
def line_number_size_of (line : Nat) : Nat := (toString line).length

/-- The anchored output of `print_formatted_message` when position
resolution succeeds: one pair of header/gutter lines for the first
message line, the numbered gutter for the second, a plain gutter for the
rest, and a final blank line. -/
def anchored_message_lines (line : Nat) (message : String) : List String :=
  let message_lines := rustLines message
  let line_number_size := line_number_size_of line
  let leftpad := String.mk (List.replicate line_number_size ' ')
  (message_lines.enum.flatMap fun p =>
    match p with
    | (0, ml) => [leftpad ++ "\x2d\x2d> " ++ ml, leftpad ++ " " ++ "|"]
    | (1, ml) => [line_hint line line_number_size ++ " " ++ ml]
    | (_, ml) => [leftpad ++ " " ++ "|" ++ " " ++ ml]) ++ [""]

/-- Function `print_formatted_message(message, file, start, _end)`: resolves the
start position and prints the anchored snippet, or falls back to the
raw message when resolution fails. Returns the printed lines. -/
def print_formatted_message (lm : List (String × List Nat)) (message file : String)
    (start _endp : Nat) : List String :=
  match get_line_column lm file start with
  | .ok line _col => anchored_message_lines line message
  | .err _ => [message]

/-- Recorded end offset of the line before line `idx + 1`: the running
`last` accumulator starts at `1`, and from line 2 on it holds the
previous recorded line end. -/
def prev_line_end (info : List Nat) : Nat → Nat
  | 0 => 1
  | n + 1 => (info.get? n).getD 0

lemma usize_sub_add_one_one (pos : Nat) : usize_sub_add_one pos 1 = pos := by
  unfold usize_sub_add_one
  rcases Nat.eq_zero_or_pos pos with h | h
  · subst h
    norm_num
  · have h1 : 1 ≤ pos := h
    rw [if_pos h1]
    omega

/-- Characterization of the scan loop on an `Ok` result: either the
position lands before or at the first entry (`last` unchanged), or the
entry of index `j` was the last one strictly exceeded. -/
lemma glc_go_ok : ∀ (info : List Nat) (line0 last pos l c : Nat),
    glc_go info line0 last pos = LcResult.ok l c →
    (l = line0 ∧ c = usize_sub_add_one pos last) ∨
      ∃ j prev, info.get? j = some prev ∧ l = line0 + j + 1 ∧ prev < pos ∧ c = pos - prev + 1 := by
  intro info
  induction info with
  | nil =>
    intro line0 last pos l c h
    simp [glc_go] at h
  | cons b rest ih =>
    intro line0 last pos l c h
    simp only [glc_go] at h
    by_cases hb : pos > b
    · rw [if_pos hb] at h
      rcases ih (line0 + 1) b pos l c h with ⟨h1, h2⟩ | ⟨j, prev, hj, hl, hp, hc⟩
      · right
        refine ⟨0, b, rfl, by omega, hb, ?_⟩
        rw [h2, usize_sub_add_one, if_pos (Nat.le_of_lt hb)]
      · right
        exact ⟨j + 1, prev, by simpa using hj, by omega, hp, hc⟩
    · rw [if_neg hb] at h
      left
      rw [LcResult.ok.injEq] at h
      exact ⟨h.1.symm, h.2.symm⟩

/-- The recorded line ends are strictly increasing and strictly above
the starting byte count. -/
lemma compute_line_info_go_bounds : ∀ (ls : List String) (byte : Nat),
    List.Pairwise (· < ·) (compute_line_info_go ls byte) ∧
      ∀ x ∈ compute_line_info_go ls byte, byte < x := by
  intro ls
  induction ls with
  | nil =>
    intro byte
    simp [compute_line_info_go]
  | cons l rest ih =>
    intro byte
    simp only [compute_line_info_go]
    obtain ⟨hpw, hlb⟩ := ih (byte + l.utf8ByteSize + 1)
    refine ⟨List.pairwise_cons.mpr ⟨fun x hx => ?_, hpw⟩, fun x hx => ?_⟩
    · have := hlb x hx
      omega
    · rcases List.mem_cons.mp hx with h | h
      · omega
      · have := hlb x h
        omega

/-- Running the scan loop at a position equal to a recorded line end:
the strict comparison `pos > *byte` fails exactly at that entry, so the
scan stops there. -/
lemma glc_go_boundary : ∀ (info : List Nat) (idx : Nat) (b line0 last : Nat),
    info.get? idx = some b →
    List.Pairwise (· < ·) info →
    (∀ x ∈ info, last ≤ x) →
    glc_go info line0 last b =
      LcResult.ok (line0 + idx)
        (b - (match idx with | 0 => last | n + 1 => (info.get? n).getD 0) + 1) := by
  intro info
  induction info with
  | nil =>
    intro idx b line0 last h
    simp at h
  | cons c rest ih =>
    intro idx b line0 last hb hpw hlb
    rcases idx with _ | n
    · have hcb : c = b := by simpa using hb
      subst hcb
      simp only [glc_go]
      rw [if_neg (by omega : ¬ c > c)]
      have hlast : last ≤ c := hlb c (List.mem_cons_self _ _)
      rw [usize_sub_add_one, if_pos hlast]
      simp
    · rw [List.get?_cons_succ] at hb
      rw [List.pairwise_cons] at hpw
      have hcb : c < b := hpw.1 b (List.get?_mem hb)
      simp only [glc_go]
      rw [if_pos hcb]
      rw [ih n b (line0 + 1) c hb hpw.2 (fun x hx => Nat.le_of_lt (hpw.1 x hx))]
      rw [LcResult.ok.injEq]
      refine ⟨by omega, ?_⟩
      rcases n with _ | m
      · simp
      · simp [List.get?_cons_succ]

/-- C2 (amended): whenever `get_line_column` succeeds on a recorded
file, the round trip holds against the *actual* previous-end value: for
line ≥ 2 the stored end of the previous line plus `column − 1` is the
byte offset; on the first line the accumulator starts at 1 (not 0), so
the column equals the byte offset itself and reconstructing from a
previous-end of 0 is off by one. -/
theorem position_roundtrip (lm : List (String × List Nat)) (f content : String)
    (pos line col : Nat)
    (hrec : alist_get lm f = some (compute_line_info content))
    (hok : get_line_column lm f pos = LcResult.ok line col) :
    (line = 1 → col = pos) ∧
      (2 ≤ line → ∃ prev, (compute_line_info content).get? (line - 2) = some prev ∧
        prev + (col - 1) = pos) := by
  unfold get_line_column at hok
  rw [hrec] at hok
  rcases glc_go_ok _ 1 1 pos line col hok with ⟨h1, h2⟩ | ⟨j, prev, hj, hl, hp, hc⟩
  · subst h1
    rw [h2, usize_sub_add_one_one]
    exact ⟨fun _ => rfl, fun h => by omega⟩
  · refine ⟨fun h => by omega, fun _ => ⟨prev, ?_, by omega⟩⟩
    have hj2 : line - 2 = j := by omega
    rw [hj2]
    exact hj

/-- C2 counterexample: in the file "ab\ncd\n", byte offset 1 is on the
first line and resolves to column 1, but the reconstruction demanded by
the claim (previous line end 0, `0 + column − 1`) yields 0, not 1. -/
theorem roundtrip_first_line_cx :
    get_line_column [("f", compute_line_info "ab\ncd\n")] "f" 1 = LcResult.ok 1 1 ∧
      0 + (1 - 1) ≠ 1 := ⟨rfl, by decide⟩

/-- C2 witness: offset 4 of "ab\ncd\n" resolves to line 2, column 2,
and the recorded end of line 1 (3) plus `column − 1` reconstructs 4. -/
theorem position_roundtrip_witness :
    ((2 = 1 → 2 = 4) ∧
      (2 ≤ 2 → ∃ prev, (compute_line_info "ab\ncd\n").get? (2 - 2) = some prev ∧
        prev + (2 - 1) = 4)) :=
  position_roundtrip [("f", compute_line_info "ab\ncd\n")] "f" "ab\ncd\n" 4 2 2 rfl rfl

/-- C3 (amended): an offset exactly equal to the recorded cumulative
end `b` of the line of index `idx` (0-based) resolves to that same line
(`idx + 1`, 1-based), with column `b − prev + 1` where `prev` is the
previous line's recorded end (1 for the first line) — the boundary
offset belongs to the line it terminates, not to the next line. -/
theorem boundary_resolution (lm : List (String × List Nat)) (f content : String)
    (idx b : Nat)
    (hrec : alist_get lm f = some (compute_line_info content))
    (hb : (compute_line_info content).get? idx = some b) :
    get_line_column lm f b =
      LcResult.ok (idx + 1) (b - prev_line_end (compute_line_info content) idx + 1) := by
  unfold get_line_column
  rw [hrec]
  obtain ⟨hpw, hlb⟩ := compute_line_info_go_bounds (rustLines content) 0
  have hlb1 : ∀ x ∈ compute_line_info content, 1 ≤ x := fun x hx => hlb x hx
  show glc_go (compute_line_info content) 1 1 b = _
  rw [glc_go_boundary (compute_line_info content) idx b 1 1 hb hpw hlb1]
  rw [LcResult.ok.injEq]
  refine ⟨by omega, ?_⟩
  cases idx <;> simp [prev_line_end]

/-- C3 counterexample: in "ab\ncd\n" the recorded end of line 1 is
offset 3; `get_line_column` at offset 3 returns line 1, column 3 — not
line 2, column 1 as the claim states. -/
theorem boundary_cx :
    get_line_column [("f", compute_line_info "ab\ncd\n")] "f" 3 = LcResult.ok 1 3 ∧
      LcResult.ok 1 3 ≠ LcResult.ok 2 1 := ⟨rfl, by decide⟩

/-- C3 witness: the recorded end of line 2 of "ab\ncd\n" is offset 6,
which resolves to line 2 with column `6 − 3 + 1`. -/
theorem boundary_resolution_witness :
    get_line_column [("f", compute_line_info "ab\ncd\n")] "f" 6 =
      LcResult.ok (1 + 1) (6 - prev_line_end (compute_line_info "ab\ncd\n") 1 + 1) :=
  boundary_resolution [("f", compute_line_info "ab\ncd\n")] "f" "ab\ncd\n" 1 6 rfl rfl

/-- C9 (amended): for every byte offset ≥ 1 the subtraction
`pos - last` never underflows — every successful resolution returns a
1-based (positive) column. At offset 0 the subtraction wraps (see the
counterexample), because `last` is initialized to 1 rather than 0. -/
theorem column_positive (lm : List (String × List Nat)) (f : String)
    (pos line col : Nat) (hpos : 1 ≤ pos)
    (hok : get_line_column lm f pos = LcResult.ok line col) : 1 ≤ col := by
  unfold get_line_column at hok
  cases hinfo : alist_get lm f with
  | none =>
    rw [hinfo] at hok
    simp at hok
  | some info =>
    rw [hinfo] at hok
    rcases glc_go_ok info 1 1 pos line col hok with ⟨h1, h2⟩ | ⟨j, prev, hj, hl, hp, hc⟩
    · rw [h2, usize_sub_add_one_one]
      exact hpos
    · omega

/-- C9 counterexample: with line ends `[3]` recorded for "f", offset 0
makes `pos - last` underflow (`last` starts at 1): the wrapped result is
column 0, which is not a 1-based column. -/
theorem underflow_cx :
    get_line_column [("f", [3])] "f" 0 = LcResult.ok 1 0 ∧ ¬ 1 ≤ 0 := ⟨rfl, by decide⟩

/-- C9 witness: offset 1 resolves with a positive column. -/
theorem column_positive_witness :
    (1 : Nat) ≤ 1 ∧ get_line_column [("f", [3])] "f" 1 = LcResult.ok 1 1 ∧ (1 : Nat) ≤ 1 :=
  ⟨by decide, rfl, column_positive [("f", [3])] "f" 1 1 1 (by decide) rfl⟩

/-- C6: if position resolution fails (returns an error), the renderer
prints exactly the raw message, unanchored, and returns normally —
a failed lookup never propagates an error out of the renderer. -/
theorem renderer_fallback (lm : List (String × List Nat)) (message file : String)
    (start endp : Nat) (e : String)
    (h : get_line_column lm file start = LcResult.err e) :
    print_formatted_message lm message file start endp = [message] := by
  unfold print_formatted_message
  rw [h]

/-- C6 witness: an unindexed file name makes resolution fail and the
renderer falls back to the raw message. -/
theorem renderer_fallback_witness :
    get_line_column [] "f" 0 = LcResult.err "Filename not found" ∧
      print_formatted_message [] "msg" "f" 0 7 = ["msg"] :=
  ⟨rfl, renderer_fallback [] "msg" "f" 0 7 "Filename not found" rfl⟩

/-- Message of the `parse_error!()` macro. -/
def parse_error_msg : String := "Failed to parse compilation result"

/-- Outcome of a fallible stage: a panic (`unwrap` on a missing or
mistyped value), an `Err`, or success. -/
inductive RunResult (α : Type) where
  | panics
  | fails (msg : String)
  | ok (v : α)

/-- Per-entry outcome inside the `errors` loop. -/
inductive EntryStep where
  | fails (msg : String)
  | panics
  | ok (isError : Bool)

/-- Outcome of the whole `errors` loop. -/
inductive ScanOut where
  | fails (msg : String)
  | panics
  | done (severe : Bool)

/-- Field `severity` of a diagnostic entry, as read by the loop. -/
def sev_raw (e : Json) : Option String :=
  (e.asObject.bind (alist_get · "severity")).bind Json.asStr

/-- Field `message` of a diagnostic entry. -/
def msg_raw (e : Json) : Option String :=
  (e.asObject.bind (alist_get · "message")).bind Json.asStr

/-- Field `formattedMessage` of a diagnostic entry. -/
def fmsg_raw (e : Json) : Option String :=
  (e.asObject.bind (alist_get · "formattedMessage")).bind Json.asStr

/-- Field `sourceLocation` (an object) of a diagnostic entry. -/
def sloc_raw (e : Json) : Option (List (String × Json)) :=
  (e.asObject.bind (alist_get · "sourceLocation")).bind Json.asObject

/-- Field `sourceLocation.file` of a diagnostic entry. -/
def sfile_raw (e : Json) : Option String :=
  ((sloc_raw e).bind (alist_get · "file")).bind Json.asStr

/-- Field `sourceLocation.start` of a diagnostic entry. -/
def sstart_raw (e : Json) : Option Int :=
  ((sloc_raw e).bind (alist_get · "start")).bind Json.asI64

/-- Field `sourceLocation.end` of a diagnostic entry. -/
def send_raw (e : Json) : Option Int :=
  ((sloc_raw e).bind (alist_get · "end")).bind Json.asI64

/-- A diagnostic entry is well formed when every field the loop body
reads is present with the expected type and the severity is one of the
two recognized values. -/
def wf_entry (e : Json) : Bool :=
  (match sev_raw e with
   | some s => s == "warning" || s == "error"
   | none => false) &&
  (msg_raw e).isSome && (fmsg_raw e).isSome &&
  (sfile_raw e).isSome && (sstart_raw e).isSome && (send_raw e).isSome

def entry_severity (e : Json) : String := (sev_raw e).getD ""
def entry_message (e : Json) : String := (msg_raw e).getD ""
def entry_formatted (e : Json) : String := (fmsg_raw e).getD ""
def entry_file (e : Json) : String := (sfile_raw e).getD ""
def entry_start (e : Json) : Int := (sstart_raw e).getD 0
def entry_end (e : Json) : Int := (send_raw e).getD 0

/-- The lines a well-formed diagnostic entry prints: the severity label
and message line followed by the renderer output for its formatted
message anchored at its source location. -/
def entry_output (lm : List (String × List Nat)) (e : Json) : List String :=
  ((if entry_severity e = "error" then "Error" else "Warning") ++ ": " ++ entry_message e) ::
    print_formatted_message lm (entry_formatted e) (entry_file e)
      (int_to_usize (entry_start e)) (int_to_usize (entry_end e))

/-- One iteration of the `errors` loop of `parse_comp_result`: extract
and print, mirroring the source's order of `?`-propagated accesses
(`format_err!` results) and of `unwrap`s (panics) on the
`sourceLocation` fields. Returns the lines printed by this entry and
the step outcome. -/
def processEntry (lm : List (String × List Nat)) (e : Json) : List String × EntryStep :=
  match e.asObject with
  | none => ([], .fails parse_error_msg)
  | some eo =>
  match alist_get eo "severity" with
  | none => ([], .fails parse_error_msg)
  | some sv =>
  match sv.asStr with
  | none => ([], .fails parse_error_msg)
  | some severity =>
  match (match severity with
         | "warning" => some ("Warning", false)
         | "error" => some ("Error", true)
         | _ => none : Option (String × Bool)) with
  | none => ([], .fails "Unknown severity")
  | some (sevLabel, isErr) =>
  match alist_get eo "message" with
  | none => ([], .fails parse_error_msg)
  | some mv =>
  match mv.asStr with
  | none => ([], .fails parse_error_msg)
  | some message =>
  -- eprintln!("{}: {}", prefix, colorize(message, white))
  let sevLine := sevLabel ++ ": " ++ message
  match alist_get eo "formattedMessage" with
  | none => ([sevLine], .fails parse_error_msg)
  | some fv =>
  match fv.asStr with
  | none => ([sevLine], .fails parse_error_msg)
  | some formatted_message =>
  match alist_get eo "sourceLocation" with
  | none => ([sevLine], .fails parse_error_msg)
  | some slv =>
  match slv.asObject with
  | none => ([sevLine], .fails parse_error_msg)
  | some source_location =>
  -- .get("file").unwrap().as_str().unwrap() — panics, not Err
  match alist_get source_location "file" with
  | none => ([sevLine], .panics)
  | some fjv =>
  match fjv.asStr with
  | none => ([sevLine], .panics)
  | some source_file =>
  match alist_get source_location "start" with
  | none => ([sevLine], .panics)
  | some sjv =>
  match sjv.asI64 with
  | none => ([sevLine], .panics)
  | some source_start =>
  match alist_get source_location "end" with
  | none => ([sevLine], .panics)
  | some ejv =>
  match ejv.asI64 with
  | none => ([sevLine], .panics)
  | some source_end =>
    (sevLine :: print_formatted_message lm formatted_message source_file
        (int_to_usize source_start) (int_to_usize source_end),
      .ok isErr)

/-- The `errors` loop: process entries in response order, accumulating
the printed lines and the `severe` flag, stopping early only when an
entry's processing fails or panics. -/
def processEntries (lm : List (String × List Nat)) : List Json → Bool → List String × ScanOut
  | [], severe => ([], .done severe)
  | e :: rest, severe =>
    match processEntry lm e with
    | (tr, .fails m) => (tr, .fails m)
    | (tr, .panics) => (tr, .panics)
    | (tr, .ok isErr) =>
      let r := processEntries lm rest (severe || isErr)
      (tr ++ r.1, r.2)

/-- The selection predicate for the no-contract case: any unit when not
compiling to a binary, otherwise only units with an `assembly` output. -/
def unit_predicate (compile : Bool) (v : Json) : Bool :=
  if !compile then true
  else match v.asObject with
    | some vo => (alist_get vo "assembly").isSome
    | none => false

/-- Unit selection (`parse_comp_result` lines after the `contracts`
lookups): an explicitly requested contract is returned iff present;
otherwise the units are filtered by `unit_predicate` and the result is
the single match, with zero and two-or-more matches failing. -/
def select_unit (all : List (String × Json)) (contract : Option String)
    (compile : Bool) : RunResult Json :=
  match contract with
  | some c =>
    match alist_get all c with
    | none => .fails ("Source file doesn\x27t contain the desired contract \"" ++ c ++ "\"")
    | some v => .ok v
  | none =>
    let qualification := if compile then "deployable " else ""
    match all.filter (fun kv => unit_predicate compile kv.2) with
    | [] => .fails ("Source file contains no " ++ qualification ++ "contracts")
    | [kv] => .ok kv.2
    | _ :: _ :: _ =>
      .fails ("Source file contains at least two " ++ qualification ++
        "contracts. Consider adding the option \x2d\x2dcontract in compiler command line to select the desired contract")

/-- The `contracts` lookups of `parse_comp_result` followed by unit
selection. -/
def select_stage (ro : List (String × Json)) (input : String)
    (contract : Option String) (compile : Bool) : RunResult Json :=
  match alist_get ro "contracts" with
  | none => .fails parse_error_msg
  | some cv =>
  match cv.asObject with
  | none => .fails parse_error_msg
  | some co =>
  match alist_get co input with
  | none => .fails parse_error_msg
  | some fv =>
  match fv.asObject with
  | none => .fails parse_error_msg
  | some all => select_unit all contract compile

/-- Function `parse_comp_result(res, input, contract, compile)`: returns the
stderr lines printed (diagnostics) together with the outcome. -/
def parse_comp_result (lm : List (String × List Nat)) (res : Json) (input : String)
    (contract : Option String) (compile : Bool) : List String × RunResult Json :=
  match res.asObject with
  | none => ([], .fails parse_error_msg)
  | some ro =>
    match alist_get ro "errors" with
    | some v =>
      match v.asArray with
      | none => ([], .fails parse_error_msg)
      | some entries =>
        match processEntries lm entries false with
        | (tr, .fails m) => (tr, .fails m)
        | (tr, .panics) => (tr, .panics)
        | (tr, .done severe) =>
          if severe then (tr, .fails "Compilation failed")
          else (tr, select_stage ro input contract compile)
    | none => ([], select_stage ro input contract compile)

lemma string_data_append (a b : String) : (a ++ b).data = a.data ++ b.data := by
  cases a
  cases b
  rfl

lemma string_append_assoc (a b c : String) : a ++ b ++ c = a ++ (b ++ c) := by
  cases a
  cases b
  cases c
  show String.mk _ = String.mk _
  rw [List.append_assoc]

lemma append_ne_of_head (p t s : String) (c : Char)
    (hp : p.data.head? = some c) (hs : s.data.head? ≠ some c) : p ++ t ≠ s := by
  intro h
  apply hs
  rw [← h, string_data_append]
  cases hd : p.data with
  | nil => rw [hd] at hp; simp at hp
  | cons x xs =>
    rw [hd] at hp
    simpa using hp

/-- None of the selection-stage failure messages is the compilation
failure message (they all start with a different word). -/
lemma select_unit_ne_compfail (all : List (String × Json)) (contract : Option String)
    (compile : Bool) :
    select_unit all contract compile ≠ RunResult.fails "Compilation failed" := by
  rcases contract with _ | c
  · rcases hfil : all.filter (fun kv => unit_predicate compile kv.2) with _ | ⟨kv, _ | rest⟩
    · simp only [select_unit, hfil]
      intro h
      rw [RunResult.fails.injEq, string_append_assoc] at h
      refine append_ne_of_head _ _ _ 'S' ?_ (by decide) h
      rfl
    · simp only [select_unit, hfil]
      intro h
      exact RunResult.noConfusion h
    · simp only [select_unit, hfil]
      intro h
      rw [RunResult.fails.injEq, string_append_assoc] at h
      refine append_ne_of_head _ _ _ 'S' ?_ (by decide) h
      rfl
  · rcases hget : alist_get all c with _ | v
    · simp only [select_unit, hget]
      intro h
      rw [RunResult.fails.injEq, string_append_assoc] at h
      refine append_ne_of_head _ _ _ 'S' ?_ (by decide) h
      rfl
    · simp only [select_unit, hget]
      intro h
      exact RunResult.noConfusion h

/-- The whole selection stage never fails with the compilation-failure
message: its protocol errors use the parse-error message and unit
selection uses its own messages. -/
lemma select_stage_ne_compfail (ro : List (String × Json)) (input : String)
    (contract : Option String) (compile : Bool) :
    select_stage ro input contract compile ≠ RunResult.fails "Compilation failed" := by
  rcases hc : alist_get ro "contracts" with _ | cv
  · simp only [select_stage, hc]
    intro h
    rw [RunResult.fails.injEq] at h
    exact absurd h (by decide)
  · rcases hco : cv.asObject with _ | co
    · simp only [select_stage, hc, hco]
      intro h
      rw [RunResult.fails.injEq] at h
      exact absurd h (by decide)
    · rcases hf : alist_get co input with _ | fv
      · simp only [select_stage, hc, hco, hf]
        intro h
        rw [RunResult.fails.injEq] at h
        exact absurd h (by decide)
      · rcases hall : fv.asObject with _ | all
        · simp only [select_stage, hc, hco, hf, hall]
          intro h
          rw [RunResult.fails.injEq] at h
          exact absurd h (by decide)
        · simp only [select_stage, hc, hco, hf, hall]
          exact select_unit_ne_compfail all contract compile

lemma opt_str_chain {o : Option (List (String × Json))} {key s : String}
    (h : (o.bind (alist_get · key)).bind Json.asStr = some s) :
    ∃ fields v, o = some fields ∧ alist_get fields key = some v ∧ v.asStr = some s := by
  rw [Option.bind_eq_some] at h
  obtain ⟨v, hv, hvs⟩ := h
  rw [Option.bind_eq_some] at hv
  obtain ⟨fields, hf, hg⟩ := hv
  exact ⟨fields, v, hf, hg, hvs⟩

lemma opt_obj_chain {o : Option (List (String × Json))} {key : String}
    {fs : List (String × Json)}
    (h : (o.bind (alist_get · key)).bind Json.asObject = some fs) :
    ∃ fields v, o = some fields ∧ alist_get fields key = some v ∧ v.asObject = some fs := by
  rw [Option.bind_eq_some] at h
  obtain ⟨v, hv, hvs⟩ := h
  rw [Option.bind_eq_some] at hv
  obtain ⟨fields, hf, hg⟩ := hv
  exact ⟨fields, v, hf, hg, hvs⟩

lemma opt_i64_chain {o : Option (List (String × Json))} {key : String} {n : Int}
    (h : (o.bind (alist_get · key)).bind Json.asI64 = some n) :
    ∃ fields v, o = some fields ∧ alist_get fields key = some v ∧ v.asI64 = some n := by
  rw [Option.bind_eq_some] at h
  obtain ⟨v, hv, hvs⟩ := h
  rw [Option.bind_eq_some] at hv
  obtain ⟨fields, hf, hg⟩ := hv
  exact ⟨fields, v, hf, hg, hvs⟩

/-- A well-formed entry is processed without failing: it prints exactly
`entry_output` and reports whether its severity was `error`. -/
lemma processEntry_wf (lm : List (String × List Nat)) (e : Json)
    (hwf : wf_entry e = true) :
    processEntry lm e = (entry_output lm e, EntryStep.ok (entry_severity e == "error")) := by
  simp only [wf_entry, Bool.and_eq_true] at hwf
  obtain ⟨⟨⟨⟨⟨hsev, hmsg⟩, hfmsg⟩, hfile⟩, hstart⟩, hend⟩ := hwf
  cases hs : sev_raw e with
  | none => rw [hs] at hsev; simp at hsev
  | some s =>
  rw [hs] at hsev
  have hs0 := hs
  rw [sev_raw] at hs0
  obtain ⟨eo, sv, heo, hsvg, hsvs⟩ := opt_str_chain hs0
  obtain ⟨m, hm⟩ := Option.isSome_iff_exists.mp hmsg
  have hm0 := hm
  rw [msg_raw] at hm0
  obtain ⟨eo2, mv, heo2, hmvg, hmvs⟩ := opt_str_chain hm0
  rw [heo] at heo2
  injection heo2 with heq
  subst heq
  obtain ⟨fm, hf⟩ := Option.isSome_iff_exists.mp hfmsg
  have hf0 := hf
  rw [fmsg_raw] at hf0
  obtain ⟨eo3, fv, heo3, hfvg, hfvs⟩ := opt_str_chain hf0
  rw [heo] at heo3
  injection heo3 with heq
  subst heq
  obtain ⟨sfile, hsf⟩ := Option.isSome_iff_exists.mp hfile
  have hsf0 := hsf
  rw [sfile_raw] at hsf0
  obtain ⟨sl, fjv, hsloc, hfjg, hfjs⟩ := opt_str_chain hsf0
  have hsloc0 := hsloc
  rw [sloc_raw] at hsloc0
  obtain ⟨eo4, slv, heo4, hslg, hslvo⟩ := opt_obj_chain hsloc0
  rw [heo] at heo4
  injection heo4 with heq
  subst heq
  obtain ⟨stv, hst⟩ := Option.isSome_iff_exists.mp hstart
  have hst0 := hst
  rw [sstart_raw] at hst0
  obtain ⟨sl2, sjv, hsloc2, hsjg, hsji⟩ := opt_i64_chain hst0
  rw [hsloc] at hsloc2
  injection hsloc2 with heq
  subst heq
  obtain ⟨env, hen⟩ := Option.isSome_iff_exists.mp hend
  have hen0 := hen
  rw [send_raw] at hen0
  obtain ⟨sl3, ejv, hsloc3, hejg, heji⟩ := opt_i64_chain hen0
  rw [hsloc] at hsloc3
  injection hsloc3 with heq
  subst heq
  rw [Bool.or_eq_true] at hsev
  have hsplit : s = "warning" ∨ s = "error" := by
    rcases hsev with hw | he
    · exact Or.inl (by simpa using hw)
    · exact Or.inr (by simpa using he)
  rcases hsplit with rfl | rfl
  · simp only [processEntry, heo, hsvg, hsvs, hmvg, hmvs, hfvg, hfvs, hslg, hslvo,
      hfjg, hfjs, hsjg, hsji, hejg, heji]
    simp [entry_output, entry_severity, entry_message, entry_formatted, entry_file,
      entry_start, entry_end, hs, hm, hf, hsf, hst, hen]
  · simp only [processEntry, heo, hsvg, hsvs, hmvg, hmvs, hfvg, hfvs, hslg, hslvo,
      hfjg, hfjs, hsjg, hsji, hejg, heji]
    simp [entry_output, entry_severity, entry_message, entry_formatted, entry_file,
      entry_start, entry_end, hs, hm, hf, hsf, hst, hen]

/-- When every entry is well formed the loop never stops early: it
prints every entry's output in response order and reports whether any
entry had `error` severity. -/
lemma processEntries_wf (lm : List (String × List Nat)) :
    ∀ (entries : List Json) (sev : Bool),
    (∀ e ∈ entries, wf_entry e = true) →
    processEntries lm entries sev =
      (entries.flatMap (entry_output lm),
        ScanOut.done (sev || entries.any (fun e => entry_severity e == "error"))) := by
  intro entries
  induction entries with
  | nil =>
    intro sev _
    simp [processEntries]
  | cons e rest ih =>
    intro sev hwf
    have he := hwf e (List.mem_cons_self _ _)
    simp only [processEntries, processEntry_wf lm e he,
      ih (sev || (entry_severity e == "error")) (fun x hx => hwf x (List.mem_cons_of_mem _ hx))]
    simp [Bool.or_assoc]

/-- C4: with a well-formed `errors` array, `parse_comp_result` prints
every diagnostic entry's lines in response order (none is suppressed),
and returns the "Compilation failed" error exactly when at least one
entry has severity `error`. -/
theorem diagnostics_printed (lm : List (String × List Nat)) (res : Json)
    (ro : List (String × Json)) (v : Json) (entries : List Json)
    (input : String) (contract : Option String) (compile : Bool)
    (hro : res.asObject = some ro)
    (herr : alist_get ro "errors" = some v)
    (harr : v.asArray = some entries)
    (hwf : ∀ e ∈ entries, wf_entry e = true) :
    (parse_comp_result lm res input contract compile).1 = entries.flatMap (entry_output lm) ∧
      ((parse_comp_result lm res input contract compile).2 = RunResult.fails "Compilation failed" ↔
        ∃ e ∈ entries, entry_severity e = "error") := by
  have hpcr : parse_comp_result lm res input contract compile =
      (entries.flatMap (entry_output lm),
        if entries.any (fun e => entry_severity e == "error")
          then RunResult.fails "Compilation failed"
          else select_stage ro input contract compile) := by
    simp only [parse_comp_result, hro, herr, harr,
      processEntries_wf lm entries false hwf, Bool.false_or]
    split <;> rfl
  rw [hpcr]
  refine ⟨rfl, ?_⟩
  show (if entries.any (fun e => entry_severity e == "error")
      then RunResult.fails "Compilation failed"
      else select_stage ro input contract compile) = RunResult.fails "Compilation failed" ↔ _
  cases hany : entries.any (fun e => entry_severity e == "error") with
  | true =>
    rw [if_pos rfl]
    constructor
    · intro _
      obtain ⟨e, he, hp⟩ := List.any_eq_true.mp hany
      exact ⟨e, he, by simpa using hp⟩
    · intro _
      rfl
  | false =>
    rw [if_neg (by decide : ¬ false = true)]
    constructor
    · intro h
      exact absurd h (select_stage_ne_compfail ro input contract compile)
    · rintro ⟨e, he, hp⟩
      have hx : entries.any (fun e => entry_severity e == "error") = true :=
        List.any_eq_true.mpr ⟨e, he, by simpa using hp⟩
      rw [hany] at hx
      cases hx

/-- Concrete well-formed error entry for the C4 witness. -/
def entryW4 : Json :=
  Json.obj [("severity", Json.str "error"), ("message", Json.str "m"),
    ("formattedMessage", Json.str "fm"),
    ("sourceLocation", Json.obj [("file", Json.str "f.sol"),
      ("start", Json.num 1), ("end", Json.num 2)])]

/-- Concrete response for the C4 witness. -/
def resW4 : Json := Json.obj [("errors", Json.arr [entryW4])]

/-- C4 witness: one well-formed error entry is printed and the result
is the compilation failure. -/
theorem diagnostics_printed_witness :
    (parse_comp_result [("f.sol", [3])] resW4 "in.sol" none true).1 =
        [entryW4].flatMap (entry_output [("f.sol", [3])]) ∧
      ((parse_comp_result [("f.sol", [3])] resW4 "in.sol" none true).2 =
          RunResult.fails "Compilation failed" ↔
        ∃ e ∈ [entryW4], entry_severity e = "error") :=
  diagnostics_printed [("f.sol", [3])] resW4 _ _ _ "in.sol" none true rfl rfl rfl
    (by decide)

/-- C10: an errors entry whose `sourceLocation` object is missing the
`file` field makes `parse_comp_result` panic (the source `unwrap`s the
field) instead of returning an `Err`: the severity line is printed and
then the process aborts. -/
theorem malformed_location_panics :
    parse_comp_result []
        (Json.obj [("errors", Json.arr [Json.obj [("severity", Json.str "error"),
          ("message", Json.str "m"), ("formattedMessage", Json.str "fm"),
          ("sourceLocation", Json.obj [])]])])
        "in.sol" none true =
      (["Error: m"], RunResult.panics) := rfl

/-- C1: with no contract requested, the selection stage of
`parse_comp_result` succeeds exactly when exactly one unit satisfies
the selection predicate; zero matches fail with the "contains no ...
contracts" message and two or more matches fail with the
disambiguation message — the first match is never silently returned. -/
theorem selection_exactly_one (lm : List (String × List Nat)) (res : Json)
    (input : String) (compile : Bool) (ro : List (String × Json)) (cv : Json)
    (co : List (String × Json)) (fv : Json) (all : List (String × Json))
    (hro : res.asObject = some ro)
    (hnoerr : alist_get ro "errors" = none)
    (hc : alist_get ro "contracts" = some cv)
    (hco : cv.asObject = some co)
    (hf : alist_get co input = some fv)
    (hall : fv.asObject = some all) :
    parse_comp_result lm res input none compile = ([], select_unit all none compile) ∧
      ((∃ v, select_unit all none compile = RunResult.ok v) ↔
        (all.filter (fun kv => unit_predicate compile kv.2)).length = 1) ∧
      ((all.filter (fun kv => unit_predicate compile kv.2)).length = 0 →
        select_unit all none compile =
          RunResult.fails ("Source file contains no " ++
            (if compile then "deployable " else "") ++ "contracts")) ∧
      (2 ≤ (all.filter (fun kv => unit_predicate compile kv.2)).length →
        select_unit all none compile =
          RunResult.fails ("Source file contains at least two " ++
            (if compile then "deployable " else "") ++
            "contracts. Consider adding the option \x2d\x2dcontract in compiler command line to select the desired contract")) := by
  refine ⟨?_, ?_, ?_, ?_⟩
  · simp only [parse_comp_result, hro, hnoerr, select_stage, hc, hco, hf, hall]
  · rcases hfil : all.filter (fun kv => unit_predicate compile kv.2) with _ | ⟨kv, _ | rest⟩ <;>
      simp [select_unit, hfil]
  · intro hlen
    rcases hfil : all.filter (fun kv => unit_predicate compile kv.2) with _ | ⟨kv, _ | rest⟩
    · simp [select_unit, hfil]
    · rw [hfil] at hlen
      simp at hlen
    · rw [hfil] at hlen
      simp at hlen
  · intro hlen
    rcases hfil : all.filter (fun kv => unit_predicate compile kv.2) with _ | ⟨kv, _ | rest⟩
    · rw [hfil] at hlen
      simp at hlen
    · rw [hfil] at hlen
      simp at hlen
    · simp [select_unit, hfil]

/-- Concrete response for the C1 witness: one deployable unit. -/
def resW1 : Json :=
  Json.obj [("contracts", Json.obj [("in.sol",
    Json.obj [("A", Json.obj [("assembly", Json.str "code")])])])]

/-- C1 witness: a single unit with assembly output is selected. -/
theorem selection_exactly_one_witness :
    parse_comp_result [] resW1 "in.sol" none true =
        ([], select_unit [("A", Json.obj [("assembly", Json.str "code")])] none true) ∧
      ((∃ v, select_unit [("A", Json.obj [("assembly", Json.str "code")])] none true =
          RunResult.ok v) ↔
        ([("A", Json.obj [("assembly", Json.str "code")])].filter
          (fun kv => unit_predicate true kv.2)).length = 1) ∧
      (([("A", Json.obj [("assembly", Json.str "code")])].filter
          (fun kv => unit_predicate true kv.2)).length = 0 →
        select_unit [("A", Json.obj [("assembly", Json.str "code")])] none true =
          RunResult.fails ("Source file contains no " ++
            (if true then "deployable " else "") ++ "contracts")) ∧
      (2 ≤ ([("A", Json.obj [("assembly", Json.str "code")])].filter
          (fun kv => unit_predicate true kv.2)).length →
        select_unit [("A", Json.obj [("assembly", Json.str "code")])] none true =
          RunResult.fails ("Source file contains at least two " ++
            (if true then "deployable " else "") ++
            "contracts. Consider adding the option \x2d\x2dcontract in compiler command line to select the desired contract")) :=
  selection_exactly_one [] resW1 "in.sol" true _ _ _ _ _ rfl rfl rfl rfl rfl rfl

/-- C5: with a specific contract requested, selection succeeds exactly
when that name is among the units (returning that unit's document),
fails with the "doesn't contain the desired contract" message
otherwise, and is independent of the assembly predicate (the `compile`
flag). -/
theorem contract_selection (lm : List (String × List Nat)) (res : Json)
    (input c : String) (compile : Bool) (ro : List (String × Json)) (cv : Json)
    (co : List (String × Json)) (fv : Json) (all : List (String × Json))
    (hro : res.asObject = some ro)
    (hnoerr : alist_get ro "errors" = none)
    (hc : alist_get ro "contracts" = some cv)
    (hco : cv.asObject = some co)
    (hf : alist_get co input = some fv)
    (hall : fv.asObject = some all) :
    parse_comp_result lm res input (some c) compile = ([], select_unit all (some c) compile) ∧
      ((∃ v, select_unit all (some c) compile = RunResult.ok v) ↔
        (alist_get all c).isSome = true) ∧
      (∀ v, alist_get all c = some v → select_unit all (some c) compile = RunResult.ok v) ∧
      (alist_get all c = none →
        select_unit all (some c) compile =
          RunResult.fails ("Source file doesn\x27t contain the desired contract \"" ++ c ++ "\"")) ∧
      select_unit all (some c) true = select_unit all (some c) false := by
  refine ⟨?_, ?_, ?_, ?_, rfl⟩
  · simp only [parse_comp_result, hro, hnoerr, select_stage, hc, hco, hf, hall]
  · rcases hget : alist_get all c with _ | v <;> simp [select_unit, hget]
  · intro v hv
    simp [select_unit, hv]
  · intro hv
    simp [select_unit, hv]

/-- Concrete response for the C5 witness. -/
def resW5 : Json :=
  Json.obj [("contracts", Json.obj [("in.sol", Json.obj [("A", Json.obj [])])])]

/-- C5 witness: the requested contract "A" exists (without an assembly
output) and is returned. -/
theorem contract_selection_witness :
    parse_comp_result [] resW5 "in.sol" (some "A") true =
        ([], select_unit [("A", Json.obj [])] (some "A") true) ∧
      ((∃ v, select_unit [("A", Json.obj [])] (some "A") true = RunResult.ok v) ↔
        (alist_get [("A", Json.obj [])] "A").isSome = true) ∧
      (∀ v, alist_get [("A", Json.obj [])] "A" = some v →
        select_unit [("A", Json.obj [])] (some "A") true = RunResult.ok v) ∧
      (alist_get [("A", Json.obj [])] "A" = none →
        select_unit [("A", Json.obj [])] (some "A") true =
          RunResult.fails ("Source file doesn\x27t contain the desired contract \"" ++ "A" ++ "\"")) ∧
      select_unit [("A", Json.obj [])] (some "A") true =
        select_unit [("A", Json.obj [])] (some "A") false :=
  contract_selection [] resW5 "in.sol" "A" true _ _ _ _ _ rfl rfl rfl rfl rfl rfl

/-- Model of the CLI `Args` structure (`clap` parsing itself is out of
scope; the fields are the parsed values, named as in the source). -/
structure Args where
  input : String
  contract : Option String
  output_dir : Option String
  output_prefix : Option String
  include_path : List String
  lib : Option String
  ctor_params : Option String
  gen_key : Option String
  set_key : Option String
  init : Option String
  function_ids : Bool
  ast_json : Bool
  ast_compact_json : Bool
  abi_json : Bool
  tvm_refresh_remote : Bool

/-- Prefix test on character lists. -/
def isPreList : List Char → List Char → Bool
  | [], _ => true
  | _ :: _, [] => false
  | a :: as1, b :: bs => a == b && isPreList as1 bs

/-- Substring test on character lists. -/
def subListB (n : List Char) : List Char → Bool
  | [] => isPreList n []
  | h :: t => isPreList n (h :: t) || subListB n t

/-- Substring test on strings. -/
def strContainsB (needle hay : String) : Bool := subListB needle.data hay.data

lemma isPreList_self_append : ∀ (n post : List Char), isPreList n (n ++ post) = true
  | [], _ => rfl
  | a :: as1, post => by
    simp only [List.cons_append, isPreList, beq_self_eq_true, Bool.true_and]
    exact isPreList_self_append as1 post

lemma subListB_of_isPre (n hay : List Char) (h : isPreList n hay = true) :
    subListB n hay = true := by
  cases hay with
  | nil => simpa [subListB] using h
  | cons x t => simp [subListB, h]

lemma subListB_append : ∀ (pre n post : List Char), subListB n (pre ++ n ++ post) = true
  | [], n, post => by
    rw [List.nil_append]
    exact subListB_of_isPre _ _ (isPreList_self_append n post)
  | x :: pre, n, post => by
    have ih := subListB_append pre n post
    simp only [List.cons_append, subListB, Bool.or_eq_true]
    right
    simpa using ih

lemma strContainsB_parts (x n y hay : String) (h : hay = x ++ n ++ y) :
    strContainsB n hay = true := by
  subst h
  unfold strContainsB
  rw [string_data_append, string_data_append]
  exact subListB_append x.data n.data y.data

lemma strContainsB_self_pre (n y : String) : strContainsB n (n ++ y) = true := by
  unfold strContainsB
  rw [string_data_append]
  exact subListB_of_isPre _ _ (isPreList_self_append n.data y.data)

/-- Include paths, each quoted, joined with a comma and space. -/
def include_paths_frag (args : Args) : String :=
  String.intercalate ", " (args.include_path.map (fun x => "\"" ++ x ++ "\""))

/-- The `show_function_ids` fragment of the request. -/
def show_function_ids_frag (args : Args) : String :=
  if args.function_ids then ", \"showFunctionIds\"" else ""

/-- The `assembly` fragment of the request. -/
def assembly_frag (args : Args) : String :=
  if args.abi_json || args.ast_json || args.ast_compact_json then "" else ", \"assembly\""

/-- Target contract name, empty when absent. -/
def main_contract_of (args : Args) : String := Option.getD args.contract ""

/-- The `force_remote_update` substitution (`Display` of `bool`). -/
def force_remote_frag (args : Args) : String :=
  if args.tvm_refresh_remote then "true" else "false"

/-- The output-selection list for key asterisk: the abi literal, then
the assembly fragment, then the show-function-ids fragment, spliced in
that order. -/
def outputs_frag (args : Args) : String :=
  "\"abi\"" ++ assembly_frag args ++ show_function_ids_frag args

def reqSegA : String :=
  "\n        \x7b\n            \"language\": \"Solidity\",\n            \"settings\": \x7b\n                "
def reqSegC : String := ",\n                \"forceRemoteUpdate\": "
def reqSegD : String := ",\n                "
def reqSegE : String := ",\n                \"outputSelection\": \x7b\n                    \""
def reqSegF : String := "\": \x7b\n                        \"*\": [ "
def reqSegG : String :=
  " ],\n                        \"\": [ \"ast\" ]\n                    \x7d\n                \x7d\n            \x7d,\n            \"sources\": \x7b\n                \""
def reqSegH : String := "\": \x7b\n                    \"urls\": [ \""
def reqSegI : String := "\" ]\n                \x7d\n            \x7d\n        \x7d\n    "

/-- The request document built by the `format!` call inside `compile`
(brace characters of the JSON template written as character escapes,
the substituted fragments spliced in place). -/
def compile_request (args : Args) (input : String) : String :=
  reqSegA ++ "\"includePaths\": [ " ++ include_paths_frag args ++ " ]" ++
  reqSegC ++ force_remote_frag args ++
  reqSegD ++ "\"mainContract\": \"" ++ main_contract_of args ++ "\"" ++
  reqSegE ++ input ++
  reqSegF ++ outputs_frag args ++
  reqSegG ++ input ++
  reqSegH ++ input ++ reqSegI

/-- C8: the request's output selection asks for `abi` unconditionally,
for `assembly` exactly when none of the interface-only/AST-only flags is
set, and for `showFunctionIds` exactly when requested; the quoted
include paths and the target contract name are spliced verbatim into
the request. -/
theorem request_output_selection (args : Args) (input : String) :
    strContainsB "\"abi\"" (outputs_frag args) = true ∧
    (strContainsB "\"assembly\"" (outputs_frag args) = true ↔
      (args.abi_json || args.ast_json || args.ast_compact_json) = false) ∧
    (strContainsB "\"showFunctionIds\"" (outputs_frag args) = true ↔
      args.function_ids = true) ∧
    strContainsB (outputs_frag args) (compile_request args input) = true ∧
    strContainsB ("\"includePaths\": [ " ++ include_paths_frag args ++ " ]")
      (compile_request args input) = true ∧
    strContainsB ("\"mainContract\": \"" ++ main_contract_of args ++ "\"")
      (compile_request args input) = true := by
  refine ⟨?_, ?_, ?_, ?_, ?_, ?_⟩
  · show strContainsB "\"abi\""
      ("\"abi\"" ++ assembly_frag args ++ show_function_ids_frag args) = true
    rw [string_append_assoc]
    exact strContainsB_self_pre _ _
  · simp only [outputs_frag, assembly_frag, show_function_ids_frag]
    cases h1 : args.abi_json <;> cases h2 : args.ast_json <;>
      cases h3 : args.ast_compact_json <;> cases h4 : args.function_ids <;> decide
  · simp only [outputs_frag, assembly_frag, show_function_ids_frag]
    cases h1 : args.abi_json <;> cases h2 : args.ast_json <;>
      cases h3 : args.ast_compact_json <;> cases h4 : args.function_ids <;> decide
  · exact strContainsB_parts
      (reqSegA ++ "\"includePaths\": [ " ++ include_paths_frag args ++ " ]" ++
        reqSegC ++ force_remote_frag args ++ reqSegD ++ "\"mainContract\": \"" ++
        main_contract_of args ++ "\"" ++ reqSegE ++ input ++ reqSegF)
      (outputs_frag args)
      (reqSegG ++ input ++ reqSegH ++ input ++ reqSegI)
      _ (by simp only [compile_request, string_append_assoc])
  · exact strContainsB_parts reqSegA
      ("\"includePaths\": [ " ++ include_paths_frag args ++ " ]")
      (reqSegC ++ force_remote_frag args ++ reqSegD ++ "\"mainContract\": \"" ++
        main_contract_of args ++ "\"" ++ reqSegE ++ input ++ reqSegF ++ outputs_frag args ++
        reqSegG ++ input ++ reqSegH ++ input ++ reqSegI)
      _ (by simp only [compile_request, string_append_assoc])
  · exact strContainsB_parts
      (reqSegA ++ "\"includePaths\": [ " ++ include_paths_frag args ++ " ]" ++
        reqSegC ++ force_remote_frag args ++ reqSegD)
      ("\"mainContract\": \"" ++ main_contract_of args ++ "\"")
      (reqSegE ++ input ++ reqSegF ++ outputs_frag args ++
        reqSegG ++ input ++ reqSegH ++ input ++ reqSegI)
      _ (by simp only [compile_request, string_append_assoc])

/-- Durable artifacts written by `build`; names are relative to the
output directory (directory creation and path joining are filesystem
concerns, modelled as succeeding). The `tvc`, `debug` and keypair
artifacts are produced through external library calls
(`Program`/`KeypairManager`), modelled as succeeding. -/
inductive Artifact where
  | abiFile (name : String) (abi : Json)
  | astFile (name : String) (doc : Json) (pretty : Bool) (trailingNewline : Bool)
  | codeFile (name : String) (assemblyText : String)
  | tvcFile (name : String)
  | debugFile (name : String)
  | keypairFiles (stem : String)

/-- The AST collection loop of `build`: the `ast` node of every entry
of the response's `sources` object, in source order. -/
def collect_asts : List (String × Json) → Option (List Json)
  | [] => some []
  | (_, val) :: rest =>
    match val.asObject with
    | none => none
    | some vo =>
      match alist_get vo "ast" with
      | none => none
      | some ast => (collect_asts rest).map (ast :: ·)

/-- The output-prefix validation of `build`: no path separator allowed
('/' being the separator on the modelled platform). -/
def prefix_ok (args : Args) : Bool :=
  match args.output_prefix with
  | some p => !(p.data.contains '/')
  | none => true

/-- Function `build(args, silent)` from the point where the external compiler
has returned `res`; `input` is the canonicalized source path and
`input_stem` its file stem (canonicalization, directory creation and
file IO are modelled as succeeding). Returns the stderr diagnostic
lines, the artifacts written in order, and the outcome. -/
def build (args : Args) (input input_stem : String) (lm : List (String × List Nat))
    (res : Json) (_silent : Bool) : List String × List Artifact × RunResult Unit :=
  if !(prefix_ok args) then
    ([], [],
      .fails ("Invalid output prefix \"" ++ Option.getD args.output_prefix "" ++
        "\". Use option -O to set output directory"))
  else
    match parse_comp_result lm res input args.contract
        (!(args.abi_json || args.ast_json || args.ast_compact_json)) with
    | (tr, .fails m) => (tr, [], .fails m)
    | (tr, .panics) => (tr, [], .panics)
    | (tr, .ok out) =>
      if args.function_ids then
        -- prints the pretty functionIds document to stdout; no files written
        (tr, [], .ok ())
      else
        let out_pfx := Option.getD args.output_prefix input_stem
        if args.ast_json || args.ast_compact_json then
          match res.asObject with
          | none => (tr, [], .fails parse_error_msg)
          | some ro =>
          match alist_get ro "sources" with
          | none => (tr, [], .fails parse_error_msg)
          | some sv =>
          match sv.asObject with
          | none => (tr, [], .fails parse_error_msg)
          | some srcs =>
          match collect_asts srcs with
          | none => (tr, [], .fails parse_error_msg)
          | some asts =>
            (tr, [.astFile (out_pfx ++ ".ast.json") (Json.arr asts) args.ast_json true],
              .ok ())
        else
          let abi := jindex out "abi"
          let abiArt := Artifact.abiFile (out_pfx ++ ".abi.json") abi
          if args.abi_json then (tr, [abiArt], .ok ())
          else
            match (jindex out "assembly").asStr with
            | none => (tr, [abiArt], .fails parse_error_msg)
            | some assemblyText =>
              let codeArt := Artifact.codeFile (out_pfx ++ ".code") assemblyText
              let keyArts : List Artifact := match args.gen_key with
                | some f => [Artifact.keypairFiles f]
                | none => []
              (tr, [abiArt, codeArt] ++ keyArts ++
                [Artifact.tvcFile (out_pfx ++ ".tvc"),
                  Artifact.debugFile (out_pfx ++ ".debug.json")], .ok ())

/-- C7: when AST output is requested (and the run reaches the AST
stage: valid prefix, compilation interpreted successfully, not the
function-ids mode), `build` writes exactly one artifact — the array of
every source's `ast` node collected from the whole `sources` object in
source order, pretty-printed iff `ast_json`, with a trailing newline —
and writes no abi, code, tvc or debug artifact. -/
theorem ast_output (args : Args) (input input_stem : String)
    (lm : List (String × List Nat)) (res : Json) (silent : Bool)
    (tr : List String) (out : Json) (ro : List (String × Json)) (sv : Json)
    (srcs : List (String × Json)) (asts : List Json)
    (hpref : prefix_ok args = true)
    (hast : (args.ast_json || args.ast_compact_json) = true)
    (hfid : args.function_ids = false)
    (hp : parse_comp_result lm res input args.contract
        (!(args.abi_json || args.ast_json || args.ast_compact_json)) = (tr, RunResult.ok out))
    (hro : res.asObject = some ro)
    (hs : alist_get ro "sources" = some sv)
    (hso : sv.asObject = some srcs)
    (hc : collect_asts srcs = some asts) :
    build args input input_stem lm res silent =
      (tr, [Artifact.astFile (Option.getD args.output_prefix input_stem ++ ".ast.json")
        (Json.arr asts) args.ast_json true], RunResult.ok ()) := by
  simp only [build, hpref, hast, hfid, hp, hro, hs, hso, hc, Bool.not_true,
    Bool.false_eq_true, if_false, if_pos rfl, if_true]

/-- Arguments for the C7 witness: AST (pretty) output requested. -/
def argsW7 : Args :=
  { input := "in.sol", contract := none, output_dir := none, output_prefix := none,
    include_path := [], lib := none, ctor_params := none, gen_key := none,
    set_key := none, init := none, function_ids := false, ast_json := true,
    ast_compact_json := false, abi_json := false, tvm_refresh_remote := false }

/-- Response for the C7 witness: one unit, one source with an AST. -/
def resW7 : Json :=
  Json.obj [("contracts", Json.obj [("in.sol", Json.obj [("A", Json.obj [])])]),
    ("sources", Json.obj [("in.sol", Json.obj [("ast", Json.str "AST")])])]

/-- C7 witness: the build writes a single pretty AST artifact. -/
theorem ast_output_witness :
    build argsW7 "in.sol" "in" [] resW7 true =
      ([], [Artifact.astFile (Option.getD argsW7.output_prefix "in" ++ ".ast.json")
        (Json.arr [Json.str "AST"]) argsW7.ast_json true], RunResult.ok ()) :=
  ast_output argsW7 "in.sol" "in" [] resW7 true [] (Json.obj []) _ _ _ _
    rfl rfl rfl rfl rfl rfl rfl rfl

end Sold
